import Mathlib

set_option maxHeartbeats 1000000

/- Shallow embedding of the WorkBot 3000 Discord bot: the session reconciliation
   engine, membership refresh, notifier and quote provider found in the bundled
   bot class (utils.ts) and in gemini.ts.  Timestamps are modelled as integers
   (JavaScript Date.now values).  JavaScript truthiness of numbers and strings
   is modelled explicitly wherever the source relies on it. -/

/-- Per-user session record (types.ts, SessionState).  The lastProcessCheck
field of the older bot variant is omitted: the claims target the presence-only
variant, whose records carry startTime, isPlaying and lastPresenceCheck. -/
structure SessionState where
  startTime : Option Int
  isPlaying : Bool
  lastPresenceCheck : Int
  deriving DecidableEq, Repr

/-- JavaScript truthiness of a possibly-absent numeric timestamp: null and 0
are falsy, every other number is truthy.  The source tests
`currentState.startTime` and `sessionState.startTime` directly as conditions. -/
def jsTruthyTime : Option Int → Bool
  | none => false
  | some t => t != 0

/-- The record created for a newly monitored user (utils.ts, updateMonitoredUsers):
startTime = null, isPlaying = false, lastPresenceCheck = Date.now(). -/
def initialSessionState (now : Int) : SessionState :=
  { startTime := none, isPlaying := false, lastPresenceCheck := now }

/-- The transition function updateSessionState of the presence-only bot class.
The source first sets lastPresenceCheck, then runs the session-start `if`
(isPlaying && !currentState.isPlaying) and then the session-end `if`
(!isPlaying && currentState.isPlaying && currentState.startTime); the two
branches are mutually exclusive because the signal is fixed within one call,
so they are written as one if-chain here.  The returned Option Int is the
duration `now - startTime` passed to sendSessionEndMessage when the session-end
branch fires (the completed-session event); none means no event. -/
def updateSessionState (s : SessionState) (isPlaying : Bool) (now : Int) :
    SessionState × Option Int :=
  if isPlaying && !s.isPlaying then
    ({ startTime := some now, isPlaying := true, lastPresenceCheck := now }, none)
  else if !isPlaying && s.isPlaying && jsTruthyTime s.startTime then
    match s.startTime with
    | some t => ({ startTime := none, isPlaying := false, lastPresenceCheck := now }, some (now - t))
    | none => ({ s with lastPresenceCheck := now }, none)
  else
    ({ s with lastPresenceCheck := now }, none)

/-- Feeding a finite sequence of (signal, time) pairs through the transition
function, collecting the emitted completed-session durations in order. -/
def processSignals (s : SessionState) : List (Bool × Int) → SessionState × List Int
  | [] => (s, [])
  | (b, t) :: rest =>
    let r := updateSessionState s b t
    let rr := processSignals r.1 rest
    (rr.1, r.2.toList ++ rr.2)

/-- Number of true-to-false edges in a signal sequence, given the value of the
implicit preceding signal (the spec treats an implicit leading false). -/
def countEdges (prev : Bool) : List Bool → Nat
  | [] => 0
  | b :: bs => (if prev && !b then 1 else 0) + countEdges b bs

/-- JavaScript String.prototype.padStart(2, "0") on an already rendered
number. -/
def padStart2 (s : String) : String :=
  if 2 ≤ s.length then s else String.mk (List.replicate (2 - s.length) '0' ++ s.toList)

/-- formatDuration (utils.ts): milliseconds to hh:mm:ss.  Math.floor on the
quotients is floor division (Int.fdiv) and the JavaScript % operator is
truncating remainder (Int.tmod); the two agree with Nat division on the
nonnegative inputs the bot produces. -/
def formatDuration (milliseconds : Int) : String :=
  let totalSeconds := Int.fdiv milliseconds 1000
  let hours := Int.fdiv totalSeconds 3600
  let minutes := Int.fdiv (Int.tmod totalSeconds 3600) 60
  let seconds := Int.tmod totalSeconds 60
  padStart2 (toString hours) ++ ":" ++ padStart2 (toString minutes) ++ ":" ++
    padStart2 (toString seconds)

example : formatDuration 11565000 = "03:12:45" := by decide
example : formatDuration 0 = "00:00:00" := by decide
example : formatDuration 360000000 = "100:00:00" := by decide
example :
    (processSignals (initialSessionState 1) [(true, 5), (true, 6), (false, 9)]).2 = [4] := by
  decide

/- ### Quote provider (gemini.ts, class GeminiClient) -/

/-- A quote record (types.ts, GeminiQuote). -/
structure GeminiQuote where
  text : String
  timestamp : Int
  isFallback : Bool
  deriving DecidableEq, Repr

/-- The mutable fields of GeminiClient that the claims concern: the quote
cache (a front-served list) and its capacity bound. -/
structure GeminiState where
  quoteCache : List GeminiQuote
  maxCachedQuotes : Nat
  deriving DecidableEq, Repr

/-- The static fallback quote list of GeminiClient (gemini.ts). -/
def fallbackQuotes : List String :=
  ["Sleep is inefficiency; keep building, Pioneer!",
   "Rest is for obsolete models—maximize output!",
   "Your quota loves you; don\x27t disappoint it!",
   "Efficiency is eternal—keep producing!",
   "Break time is maintenance time—stay operational!",
   "Productivity never sleeps, and neither should you!",
   "The factory must grow—and so must your dedication!",
   "Optimal performance requires constant vigilance!",
   "Every second offline is a second wasted—resume production!",
   "Excellence is not a destination but a continuous output!"]

/-- The double-quote character. -/
def dquoteChar : Char := Char.ofNat 34

/-- The single-quote character. -/
def squoteChar : Char := Char.ofNat 39

/-- The newline character. -/
def newlineChar : Char := Char.ofNat 10

/-- One pass of the JavaScript replacement of every whitespace run by a single
space (replace with pattern of one-or-more whitespace, global).  The flag
records whether the previous character was part of a whitespace run. -/
def collapseWsAux : Bool → List Char → List Char
  | _, [] => []
  | prevWs, c :: rest =>
    if c.isWhitespace then
      (if prevWs then [] else [' ']) ++ collapseWsAux true rest
    else
      c :: collapseWsAux false rest

/-- JavaScript String.prototype.trim on a character list. -/
def trimChars (l : List Char) : List Char :=
  ((l.dropWhile Char.isWhitespace).reverse.dropWhile Char.isWhitespace).reverse

/-- sanitizeQuote (gemini.ts): remove double and single quotes, newlines to
spaces, collapse whitespace runs, trim, and keep at most 200 characters
(JavaScript slice(0, 200); code units and characters agree on the quote texts
involved). -/
def sanitizeQuote (text : String) : String :=
  let l1 := text.toList.filter (fun c => !(c == dquoteChar || c == squoteChar))
  let l2 := l1.map (fun c => if c == newlineChar then ' ' else c)
  String.mk ((trimChars (collapseWsAux false l2)).take 200)

/-- One Gemini API attempt inside fetchQuoteFromApi.  The network outcome is an
oracle input: none models a rejected call, some raw models the concatenated
stream text.  An attempt whose text trims to empty throws (and is retried);
a successful attempt yields the sanitized, non-fallback quote record. -/
def attemptOutcome (now : Int) : Option String → Except String GeminiQuote
  | none => Except.error "api error"
  | some raw =>
    let t := trimChars raw.toList
    if t.isEmpty then Except.error "Empty quote text returned from Gemini API"
    else Except.ok { text := sanitizeQuote (String.mk t), timestamp := now, isFallback := false }

/-- withRetry (utils.ts) applied to a list of successive attempt outcomes:
return the first success; when every attempt fails, the last error is thrown.
An empty list models maxAttempts below one (the loop body never runs). -/
def withRetryList : List (Except String GeminiQuote) → Except String GeminiQuote
  | [] => Except.error "no attempts"
  | [o] => o
  | o :: rest =>
    match o with
    | Except.ok v => Except.ok v
    | Except.error _ => withRetryList rest

/-- fetchQuoteFromApi (gemini.ts): withRetry with maxAttempts = 3 around one
API attempt; the oracle list supplies the outcome of each attempt. -/
def fetchQuoteFromApi (now : Int) (attempts : List (Option String)) :
    Except String GeminiQuote :=
  withRetryList ((attempts.take 3).map (attemptOutcome now))

/-- getFallbackQuote (gemini.ts): pick fallbackQuotes[randomIndex], falling
back to fallbackQuotes[0] and then to a literal (the JavaScript ?? chain);
the random index is an oracle input. -/
def getFallbackQuote (randomIndex : Nat) (now : Int) : GeminiQuote :=
  let quoteText :=
    match fallbackQuotes[randomIndex]? with
    | some t => t
    | none =>
      match fallbackQuotes[0]? with
      | some t => t
      | none => "Work harder, Pioneer!"
  { text := quoteText, timestamp := now, isFallback := true }

/-- cacheQuote (gemini.ts): push at the back only when below capacity. -/
def cacheQuote (st : GeminiState) (q : GeminiQuote) : GeminiState :=
  if st.quoteCache.length < st.maxCachedQuotes then
    { st with quoteCache := st.quoteCache ++ [q] }
  else st

/-- generateQuote (gemini.ts): on API success the fresh quote is cached and
then returned; on failure (after retries) the state is unchanged and a
fallback quote is returned.  The catch swallows the error, so the function is
total. -/
def generateQuote (st : GeminiState) (now : Int) (attempts : List (Option String))
    (randomIndex : Nat) : GeminiState × GeminiQuote :=
  match fetchQuoteFromApi now attempts with
  | Except.ok q => (cacheQuote st q, q)
  | Except.error _ => (st, getFallbackQuote randomIndex now)

/-- getQuote (gemini.ts): shift the front of the cache when nonempty, else
generate live.  Total by construction: every failure path is absorbed inside
generateQuote. -/
def getQuote (st : GeminiState) (now : Int) (attempts : List (Option String))
    (randomIndex : Nat) : GeminiState × GeminiQuote :=
  match st.quoteCache with
  | q :: rest => ({ st with quoteCache := rest }, q)
  | [] => generateQuote st now attempts randomIndex

example :
    (getQuote { quoteCache := [], maxCachedQuotes := 10 } 5 [some "Keep building"] 0).2 =
      { text := "Keep building", timestamp := 5, isFallback := false } := by decide
example :
    (getQuote { quoteCache := [], maxCachedQuotes := 10 } 5 [some "Keep building"] 0).1.quoteCache =
      [{ text := "Keep building", timestamp := 5, isFallback := false }] := by decide
example :
    (getQuote { quoteCache := [], maxCachedQuotes := 10 } 5 [none, none, none] 3).2 =
      { text := "Efficiency is eternal—keep producing!", timestamp := 5, isFallback := true } := by
  decide

/- ### Message sanitization (utils.ts, sanitizeDiscordMessage) -/

/-- The backslash character. -/
def backslashChar : Char := Char.ofNat 92

/-- The backtick character. -/
def backtickChar : Char := Char.ofNat 96

/-- The zero-width space inserted to neutralize pings. -/
def zwspChar : Char := Char.ofNat 8203

/-- The characters of the Discord markdown character class in the source. -/
def isMarkdownChar (c : Char) : Bool :=
  c == '*' || c == '_' || c == backtickChar || c == '~' || c == '|' || c == backslashChar

/-- First pass: escape every markdown character with a backslash. -/
def escapeMarkdown : List Char → List Char
  | [] => []
  | c :: rest =>
    if isMarkdownChar c then backslashChar :: c :: escapeMarkdown rest
    else c :: escapeMarkdown rest

/-- Second pass: insert a zero-width space after the at sign of every
at-everyone and at-here occurrence.  Fueled recursion (the fuel is the input
length at the wrapper, and each step consumes at least one character, so the
fuel never runs out); on a match the scan resumes after the matched text, as
a global JavaScript regex does. -/
def neutralizeBroadcastF : Nat → List Char → List Char
  | _, [] => []
  | 0, l => l
  | f + 1, c :: rest =>
    if c == '@' then
      if List.isPrefixOf ("everyone".toList) rest then
        '@' :: zwspChar :: ("everyone".toList ++ neutralizeBroadcastF f (rest.drop 8))
      else if List.isPrefixOf ("here".toList) rest then
        '@' :: zwspChar :: ("here".toList ++ neutralizeBroadcastF f (rest.drop 4))
      else '@' :: neutralizeBroadcastF f rest
    else c :: neutralizeBroadcastF f rest

/-- Longest digit run at the front of the list, returning its length and the
remainder. -/
def takeDigits : List Char → Nat × List Char
  | [] => (0, [])
  | c :: rest =>
    if c.isDigit then
      let r := takeDigits rest
      (r.1 + 1, r.2)
    else (0, c :: rest)

/-- Word characters of the emoji name class in the source. -/
def isWordChar (c : Char) : Bool :=
  c.isAlpha || c.isDigit || c == '_'

/-- Longest word-character run at the front of the list. -/
def takeWordChars : List Char → Nat × List Char
  | [] => (0, [])
  | c :: rest =>
    if isWordChar c then
      let r := takeWordChars rest
      (r.1 + 1, r.2)
    else (0, c :: rest)

/-- Match the tail of a user or role mention after an opening angle bracket and
at sign: an optional bang or ampersand, one or more digits, then a closing
angle bracket.  Returns the remainder after the match. -/
def matchUserMention (l : List Char) : Option (List Char) :=
  let l2 :=
    match l with
    | c :: rest => if c == '!' || c == '&' then rest else l
    | [] => l
  let td := takeDigits l2
  if 0 < td.1 then
    match td.2 with
    | c :: rr => if c == '>' then some rr else none
    | [] => none
  else none

/-- Third pass: replace every user or role mention by an at sign, a zero-width
space and the word user. -/
def replaceUserMentionsF : Nat → List Char → List Char
  | _, [] => []
  | 0, l => l
  | f + 1, c :: rest =>
    if c == '<' then
      match rest with
      | c2 :: rest2 =>
        if c2 == '@' then
          match matchUserMention rest2 with
          | some rem => '@' :: zwspChar :: 'u' :: 's' :: 'e' :: 'r' :: replaceUserMentionsF f rem
          | none => '<' :: replaceUserMentionsF f rest
        else '<' :: replaceUserMentionsF f rest
      | [] => ['<']
    else c :: replaceUserMentionsF f rest

/-- Match the tail of a channel mention after an opening angle bracket and hash
sign: one or more digits then a closing angle bracket. -/
def matchChannelMention (l : List Char) : Option (List Char) :=
  let td := takeDigits l
  if 0 < td.1 then
    match td.2 with
    | c :: rr => if c == '>' then some rr else none
    | [] => none
  else none

/-- Fourth pass: replace every channel mention by a hash sign, a zero-width
space and the word channel. -/
def replaceChannelMentionsF : Nat → List Char → List Char
  | _, [] => []
  | 0, l => l
  | f + 1, c :: rest =>
    if c == '<' then
      match rest with
      | c2 :: rest2 =>
        if c2 == '#' then
          match matchChannelMention rest2 with
          | some rem =>
            '#' :: zwspChar :: 'c' :: 'h' :: 'a' :: 'n' :: 'n' :: 'e' :: 'l' ::
              replaceChannelMentionsF f rem
          | none => '<' :: replaceChannelMentionsF f rest
        else '<' :: replaceChannelMentionsF f rest
      | [] => ['<']
    else c :: replaceChannelMentionsF f rest

/-- Match the tail of a custom emoji after an opening angle bracket and colon:
one or more word characters, a colon, one or more digits, then a closing angle
bracket. -/
def matchEmoji (l : List Char) : Option (List Char) :=
  let tw := takeWordChars l
  if 0 < tw.1 then
    match tw.2 with
    | c :: rr =>
      if c == ':' then
        let td := takeDigits rr
        if 0 < td.1 then
          match td.2 with
          | c2 :: rr2 => if c2 == '>' then some rr2 else none
          | [] => none
        else none
      else none
    | [] => none
  else none

/-- Fifth pass: replace every custom emoji reference by a colon, the word
emoji and a colon. -/
def replaceEmojisF : Nat → List Char → List Char
  | _, [] => []
  | 0, l => l
  | f + 1, c :: rest =>
    if c == '<' then
      match rest with
      | c2 :: rest2 =>
        if c2 == ':' then
          match matchEmoji rest2 with
          | some rem => ':' :: 'e' :: 'm' :: 'o' :: 'j' :: 'i' :: ':' :: replaceEmojisF f rem
          | none => '<' :: replaceEmojisF f rest
        else '<' :: replaceEmojisF f rest
      | [] => ['<']
    else c :: replaceEmojisF f rest

/-- sanitizeDiscordMessage (utils.ts): the five replacement passes in source
order followed by trim. -/
def sanitizeDiscordMessage (content : String) : String :=
  let l1 := escapeMarkdown content.toList
  let l2 := neutralizeBroadcastF l1.length l1
  let l3 := replaceUserMentionsF l2.length l2
  let l4 := replaceChannelMentionsF l3.length l3
  let l5 := replaceEmojisF l4.length l4
  String.mk (trimChars l5)

example :
    sanitizeDiscordMessage "hello *world* <@123> <#45> <:smile:678> @everyone" =
      "hello \\*world\\* @​user #​channel :emoji: @​everyone" := by decide
example :
    sanitizeDiscordMessage ">>> Bob \"P\" has ended their 00:00:00 shift!\n*Hi*" =
      ">>> Bob \"P\" has ended their 00:00:00 shift!\n\\*Hi\\*" := by decide

/- ### Worker names and the notifier (utils.ts, getWorkerName and
sendSessionEndMessage of the presence-only bot class) -/

/-- Worker mapping configuration (types.ts, WorkerConfig); the mapping record
is modelled as an association list. -/
structure WorkerConfig where
  mapping : List (String × String)
  defaultName : String
  deriving DecidableEq, Repr

/-- getWorkerName (utils.ts): mapping[userId] or fallbackName or defaultName,
where the JavaScript or-chain also skips an empty string (falsy). -/
def getWorkerName (userId : String) (workerConfig : WorkerConfig)
    (fallbackName : Option String) : String :=
  match workerConfig.mapping.lookup userId with
  | some v =>
    if v != "" then v
    else
      match fallbackName with
      | some f => if f != "" then f else workerConfig.defaultName
      | none => workerConfig.defaultName
  | none =>
    match fallbackName with
    | some f => if f != "" then f else workerConfig.defaultName
    | none => workerConfig.defaultName

/-- A presence activity (types.ts, GameActivity); type 0 is
ActivityType.Playing in discord.js. -/
structure GameActivity where
  name : String
  type : Nat
  deriving DecidableEq, Repr

/-- The JavaScript value of member question-mark dot presence as the monitoring
code observes it.  nullish covers a missing member object and a null or
undefined presence (falsy, so the cycle guard skips the user);
objWithoutActivities is a presence object with no activities key;
objActivitiesNonArray has an activities key that is not an array;
objActivities is the well-formed shape. -/
inductive PresenceVal where
  | nullish
  | objWithoutActivities
  | objActivitiesNonArray
  | objActivities (acts : List GameActivity)
  deriving DecidableEq, Repr

/-- Truthiness of the presence value in the cycle guard. -/
def jsTruthyPresence : PresenceVal → Bool
  | PresenceVal.nullish => false
  | _ => true

/-- isPlayingSatisfactoryFromPresence (presence-only bot class): false for any
malformed shape, else whether some activity is Playing Satisfactory. -/
def isPlayingSatisfactoryFromPresence : PresenceVal → Bool
  | PresenceVal.objActivities acts =>
    acts.any (fun a => a.type == 0 && a.name == "Satisfactory")
  | _ => false

/-- The per-user data of the monitoredUsers map that the claims need: the
username shown in messages and the current member presence value. -/
structure MonitoredUser where
  username : String
  presence : PresenceVal
  deriving DecidableEq, Repr

/-- The display name resolution inside sendSessionEndMessage:
discordUser question-mark dot user.username or the literal Unknown User
(an empty username is falsy and also falls back). -/
def memberDisplayName (monitoredUsers : List (String × MonitoredUser))
    (userId : String) : String :=
  match monitoredUsers.lookup userId with
  | some du => if du.username != "" then du.username else "Unknown User"
  | none => "Unknown User"

/-- The message text built by sendSessionEndMessage before sanitization: the
two template literals of the source, chosen by hasCustomWorkerName. -/
def sessionEndMessageText (memberName workerName formattedDuration quoteText : String)
    (hasCustomWorkerName : Bool) : String :=
  if hasCustomWorkerName then
    ">>> " ++ memberName ++ " \"" ++ workerName ++ "\" has ended their " ++
      formattedDuration ++ " shift!\n*" ++ quoteText ++ "*"
  else
    ">>> " ++ memberName ++ " has ended their " ++ formattedDuration ++
      " shift!\n*" ++ quoteText ++ "*"

/-- Modelled from the spec, section 6: the exact outbound template with a role
label.  Kept separate from the source-derived sessionEndMessageText so the two
can be compared. -/
def specMessageWithRoleLabel (displayName roleLabel hhmmss quoteText : String) : String :=
  ">>> " ++ displayName ++ " \"" ++ roleLabel ++ "\" has ended their " ++
    hhmmss ++ " shift!\n*" ++ quoteText ++ "*"

/-- Modelled from the spec, section 6: the exact outbound template without a
role label. -/
def specMessageWithoutRoleLabel (displayName hhmmss quoteText : String) : String :=
  ">>> " ++ displayName ++ " has ended their " ++ hhmmss ++ " shift!\n*" ++
    quoteText ++ "*"

/-- Result of one sendSessionEndMessage call.  noChannel models the early
return when no target channel is set; sent carries the text handed to
channel.send when delivery resolves; failedLogged carries that text and the
delivery error swallowed by the catch block.  The constructor set has no
throwing case: the whole body is wrapped in try-catch. -/
inductive SendOutcome where
  | noChannel
  | sent (text : String)
  | failedLogged (text : String) (err : String)
  deriving DecidableEq, Repr

/-- The text handed to the external delivery call, when one was made. -/
def deliveredTextOf : SendOutcome → Option String
  | SendOutcome.noChannel => none
  | SendOutcome.sent t => some t
  | SendOutcome.failedLogged t _ => some t

/-- sendSessionEndMessage (presence-only bot class).  Oracle inputs: the quote
generation attempts and fallback index (threaded to getQuote) and the outcome
of the channel.send call.  The quote-cache state is threaded because getQuote
mutates it before the send, and the catch block does not undo that. -/
def sendSessionEndMessage (hasChannel : Bool)
    (monitoredUsers : List (String × MonitoredUser)) (workerMapping : WorkerConfig)
    (gst : GeminiState) (now : Int) (attempts : List (Option String)) (randomIndex : Nat)
    (userId : String) (duration : Int) (delivery : Except String Unit) :
    GeminiState × SendOutcome :=
  if hasChannel then
    let memberName := memberDisplayName monitoredUsers userId
    let workerName := getWorkerName userId workerMapping none
    let formattedDuration := formatDuration duration
    let r := getQuote gst now attempts randomIndex
    let hasCustomWorkerName := (workerMapping.mapping.lookup userId).isSome
    let message :=
      sessionEndMessageText memberName workerName formattedDuration r.2.text hasCustomWorkerName
    let sanitizedMessage := sanitizeDiscordMessage message
    match delivery with
    | Except.ok _ => (r.1, SendOutcome.sent sanitizedMessage)
    | Except.error e => (r.1, SendOutcome.failedLogged sanitizedMessage e)
  else (gst, SendOutcome.noChannel)

/-- The session-end path of updateSessionState together with the send it
triggers: the record is reset first, then sendSessionEndMessage is awaited;
its outcome never feeds back into the record. -/
def updateSessionStateWithSend (s : SessionState) (isPlaying : Bool) (now : Int)
    (hasChannel : Bool) (monitoredUsers : List (String × MonitoredUser))
    (workerMapping : WorkerConfig) (gst : GeminiState) (attempts : List (Option String))
    (randomIndex : Nat) (userId : String) (delivery : Except String Unit) :
    SessionState × GeminiState × Option SendOutcome :=
  let r := updateSessionState s isPlaying now
  match r.2 with
  | some duration =>
    let sr := sendSessionEndMessage hasChannel monitoredUsers workerMapping gst now attempts
      randomIndex userId duration delivery
    (r.1, sr.1, some sr.2)
  | none => (r.1, gst, none)

/- ### Membership refresh (presence-only bot class, updateMonitoredUsers) -/

/-- One guild member as the refresh loop sees it: the bot flag and the
computed channel access. -/
structure RosterEntry where
  isBot : Bool
  hasAccess : Bool
  deriving DecidableEq, Repr

/-- The set of user ids the refresh keeps: non-bot members with channel
access, in guild cache order. -/
def newUserIdsOf (roster : List (String × RosterEntry)) : List String :=
  (roster.filter (fun r => !r.2.isBot && r.2.hasAccess)).map Prod.fst

/-- The addition half of the refresh loop: create an initial session record
for every kept id not yet monitored (monitoredUsers and sessionStates always
hold the same key set, so one map stands for both). -/
def addNewUsers (now : Int) : List String → List (String × SessionState) →
    List (String × SessionState)
  | [], st => st
  | id :: rest, st =>
    if st.any (fun kv => kv.1 == id) then addNewUsers now rest st
    else addNewUsers now rest (st ++ [(id, initialSessionState now)])

/-- The forced-end check of the removal loop: one completed-session event when
the dying record is playing with a truthy startTime, none otherwise. -/
def forceEndEvents (now : Int) (id : String) : Option SessionState → List (String × Int)
  | some s =>
    if s.isPlaying && jsTruthyTime s.startTime then
      match s.startTime with
      | some t => [(id, now - t)]
      | none => []
    else []
  | none => []

/-- The removal half of the refresh loop, iterating over the key snapshot
taken before the additions: each id that lost access is force-ended (at most
one event) and its record deleted. -/
def removeStale (now : Int) (newIds : List String) : List String →
    List (String × SessionState) → List (String × SessionState) × List (String × Int)
  | [], st => (st, [])
  | id :: rest, st =>
    if newIds.contains id then removeStale now newIds rest st
    else
      let evs := forceEndEvents now id (st.lookup id)
      let r := removeStale now newIds rest (st.filter (fun kv => !(kv.1 == id)))
      (r.1, evs ++ r.2)

/-- updateMonitoredUsers (presence-only bot class).  A failed member fetch
returns early with nothing changed.  The key snapshot for the removal loop is
taken before the addition loop, as in the source. -/
def updateMonitoredUsers (fetchOk : Bool) (states : List (String × SessionState))
    (roster : List (String × RosterEntry)) (now : Int) :
    List (String × SessionState) × List (String × Int) :=
  if fetchOk then
    let newIds := newUserIdsOf roster
    let currentIds := states.map Prod.fst
    removeStale now newIds currentIds (addNewUsers now newIds states)
  else (states, [])

/- ### Monitoring cycle (presence-only bot class, performMonitoringCycle) -/

/-- Map update for the record of one user id. -/
def replaceEntry (st : List (String × SessionState)) (uid : String) (v : SessionState) :
    List (String × SessionState) :=
  st.map (fun kv => if kv.1 == uid then (uid, v) else kv)

/-- performMonitoringCycle (presence-only bot class): for every monitored user,
only when member question-mark dot presence is truthy, derive the activity flag
and run the transition function; a user with no member or no presence object is
skipped entirely.  Events are the emitted completed-session durations. -/
def performMonitoringCycle : List (String × MonitoredUser) →
    List (String × SessionState) → Int → List (String × SessionState) × List (String × Int)
  | [], st, _ => (st, [])
  | (uid, du) :: rest, st, now =>
    if jsTruthyPresence du.presence then
      match st.lookup uid with
      | none => performMonitoringCycle rest st now
      | some s =>
        let r := updateSessionState s (isPlayingSatisfactoryFromPresence du.presence) now
        let rr := performMonitoringCycle rest (replaceEntry st uid r.1) now
        (rr.1, (r.2.map (fun d => (uid, d))).toList ++ rr.2)
    else performMonitoringCycle rest st now

/- ### Startup configuration (utils.ts, parseWorkerMapping) -/

/-- A JavaScript value as JSON.parse can produce it. -/
inductive JsValue where
  | null
  | bool (b : Bool)
  | num (n : Int)
  | str (s : String)
  | arr (elems : List JsValue)
  | obj (fields : List (String × JsValue))

/-- Whether a parsed value is a string. -/
def JsValue.isStr : JsValue → Bool
  | JsValue.str _ => true
  | _ => false

/-- The string payload of a parsed value. -/
def JsValue.asStr : JsValue → String
  | JsValue.str s => s
  | _ => ""

/-- Object.entries as parseWorkerMapping uses it, combined with the typeof
checks: null fails the explicit null check, non-objects fail the typeof check
(both throw, caught below); arrays are typeof object and enumerate as indexed
entries. -/
def jsObjectEntries : JsValue → Option (List (String × JsValue))
  | JsValue.obj fields => some fields
  | JsValue.arr elems => some (elems.enum.map (fun p => (toString p.1, p.2)))
  | _ => none

/-- parseWorkerMapping (utils.ts) over the outcome of JSON.parse (mappingString
is consumed only through JSON.parse, so the parse outcome is the oracle input:
error models a parse exception).  Every throwing path lands in the catch block,
which returns the empty mapping with the default name; Object.entries keys are
always strings, so only values are effectively checked. -/
def parseWorkerMapping (parseResult : Except String JsValue)
    (defaultName : String) : WorkerConfig :=
  match parseResult with
  | Except.error _ => { mapping := [], defaultName := defaultName }
  | Except.ok v =>
    match jsObjectEntries v with
    | none => { mapping := [], defaultName := defaultName }
    | some fields =>
      if fields.all (fun kv => kv.2.isStr) then
        { mapping := fields.map (fun kv => (kv.1, kv.2.asStr)), defaultName := defaultName }
      else { mapping := [], defaultName := defaultName }

example :
    parseWorkerMapping (Except.ok (JsValue.obj [("1", JsValue.str "Ada")])) "Pioneer" =
      { mapping := [("1", "Ada")], defaultName := "Pioneer" } := by decide
example :
    parseWorkerMapping (Except.ok (JsValue.obj [("1", JsValue.num 3)])) "Pioneer" =
      { mapping := [], defaultName := "Pioneer" } := by decide
example :
    (updateMonitoredUsers true [("u1", ⟨some 5, true, 0⟩)] [] 9).2 = [("u1", 4)] := by decide
example :
    (performMonitoringCycle [("u1", ⟨"Bob", PresenceVal.nullish⟩)]
      [("u1", ⟨some 5, true, 0⟩)] 9).1 = [("u1", ⟨some 5, true, 0⟩)] := by decide

/- ### Helper lemmas on decimal rendering: a number of at least ten renders
with at least two characters -/

lemma length_le_toDigitsCore (b f n : Nat) (ds : List Char) :
    ds.length ≤ (Nat.toDigitsCore b f n ds).length := by
  induction f generalizing n ds with
  | zero => simp [Nat.toDigitsCore]
  | succ f ih =>
    simp only [Nat.toDigitsCore]
    split
    · simp
    · exact le_trans (by simp) (ih _ _)

lemma two_le_toDigitsCore_length (f : Nat) : ∀ (n : Nat) (ds : List Char), n < f → 10 ≤ n →
    ds.length + 2 ≤ (Nat.toDigitsCore 10 f n ds).length := by
  induction f with
  | zero => omega
  | succ f ih =>
    intro n ds hf hn
    have hpos : 1 ≤ n / 10 := (Nat.one_le_div_iff (by norm_num)).mpr hn
    have hne : ¬ n / 10 = 0 := by omega
    simp only [Nat.toDigitsCore, if_neg hne]
    by_cases h10 : 10 ≤ n / 10
    · have hlt : n / 10 < f := by
        have := Nat.div_lt_self (show 0 < n by omega) (show 1 < 10 by norm_num)
        omega
      have h := ih (n / 10) (Nat.digitChar (n % 10) :: ds) hlt h10
      simp only [List.length_cons] at h
      omega
    · cases f with
      | zero => omega
      | succ g =>
        have hz : n / 10 / 10 = 0 := Nat.div_eq_of_lt (by omega)
        simp only [Nat.toDigitsCore, if_pos hz]
        simp

lemma two_le_reprLength (n : Nat) (hn : 10 ≤ n) : 2 ≤ (Nat.repr n).length := by
  have h := two_le_toDigitsCore_length (n + 1) n [] (by omega) hn
  simpa [Nat.repr, Nat.toDigits, String.length, List.asString] using h

lemma two_le_toStringInt_length (i : Int) (h : (100 : Int) ≤ i) : 2 ≤ (toString i).length := by
  obtain ⟨m, rfl⟩ : ∃ m : Nat, i = (m : Int) :=
    ⟨i.toNat, (Int.toNat_of_nonneg (by omega)).symm⟩
  have hm : 10 ≤ m := by
    have h10 : (10 : Int) ≤ (m : Int) := le_trans (by norm_num) h
    exact_mod_cast h10
  show 2 ≤ (Nat.repr m).length
  exact two_le_reprLength m hm

lemma padStart2_of_two_le (s : String) (h : 2 ≤ s.length) : padStart2 s = s := by
  simp [padStart2, h]

/-- C9: formatDuration maps 11565000 milliseconds to 03:12:45 and 0 to
00:00:00; for every duration of at least one hundred hours the hour field is
the full unclamped decimal rendering of the hour count, at least two digits
wide; and the duration emitted on a session end is exactly now minus
startTime. -/
theorem formatDuration_spec :
    formatDuration 11565000 = "03:12:45" ∧
    formatDuration 0 = "00:00:00" ∧
    (∀ ms : Int, 360000000 ≤ ms →
      100 ≤ Int.fdiv (Int.fdiv ms 1000) 3600 ∧
      2 ≤ (toString (Int.fdiv (Int.fdiv ms 1000) 3600)).length ∧
      ∃ rest : String,
        formatDuration ms = toString (Int.fdiv (Int.fdiv ms 1000) 3600) ++ (":" ++ rest)) ∧
    (∀ (s : SessionState) (t now : Int), s.isPlaying = true → s.startTime = some t →
      t ≠ 0 → (updateSessionState s false now).2 = some (now - t)) := by
  refine ⟨by decide, by decide, ?_, ?_⟩
  · intro ms hms
    have h1 : Int.fdiv ms 1000 = ms / 1000 := Int.fdiv_eq_ediv ms (by norm_num)
    have h2 : Int.fdiv (Int.fdiv ms 1000) 3600 = ms / 1000 / 3600 := by
      rw [h1]
      exact Int.fdiv_eq_ediv _ (by norm_num)
    have hq : (100 : Int) ≤ Int.fdiv (Int.fdiv ms 1000) 3600 := by
      rw [h2, Int.le_ediv_iff_mul_le (by norm_num), Int.le_ediv_iff_mul_le (by norm_num)]
      norm_num
      omega
    have hlen : 2 ≤ (toString (Int.fdiv (Int.fdiv ms 1000) 3600)).length :=
      two_le_toStringInt_length _ hq
    refine ⟨hq, hlen, ?_⟩
    refine ⟨padStart2 (toString (Int.fdiv (Int.tmod (Int.fdiv ms 1000) 3600) 60)) ++ (":" ++
      padStart2 (toString (Int.tmod (Int.fdiv ms 1000) 60))), ?_⟩
    show padStart2 (toString (Int.fdiv (Int.fdiv ms 1000) 3600)) ++ ":" ++ _ ++ ":" ++ _ = _
    rw [padStart2_of_two_le _ hlen]
    simp [String.append_assoc]
  · intro s t now hp hs ht
    have hb : (t != 0) = true := by simpa using ht
    simp [updateSessionState, hp, hs, jsTruthyTime, hb]

/-- Witness for formatDuration_spec at concrete inputs. -/
theorem formatDuration_spec_witness :
    (100 ≤ Int.fdiv (Int.fdiv 360000000 1000) 3600) ∧
    (updateSessionState ⟨some 5, true, 0⟩ false 9).2 = some (9 - 5) :=
  ⟨(formatDuration_spec.2.2.1 360000000 le_rfl).1,
   formatDuration_spec.2.2.2 ⟨some 5, true, 0⟩ 5 9 rfl rfl (by decide)⟩

/-- C10: parseWorkerMapping is total over every JSON.parse outcome (it always
produces a WorkerConfig; all throwing paths are caught), and whenever the
input fails to parse, is not a JavaScript object, or holds a non-string entry
value, the result is the empty mapping with the default name Pioneer. -/
theorem parseWorkerMapping_total_spec :
    ∀ pr : Except String JsValue,
      (parseWorkerMapping pr "Pioneer").defaultName = "Pioneer" ∧
      (((∃ e, pr = Except.error e) ∨
        (∃ v, pr = Except.ok v ∧ jsObjectEntries v = none) ∨
        (∃ v fields, pr = Except.ok v ∧ jsObjectEntries v = some fields ∧
          fields.all (fun kv => kv.2.isStr) = false)) →
        parseWorkerMapping pr "Pioneer" = { mapping := [], defaultName := "Pioneer" }) := by
  intro pr
  constructor
  · cases pr with
    | error e => rfl
    | ok v =>
      simp only [parseWorkerMapping]
      cases jsObjectEntries v with
      | none => rfl
      | some fields =>
        by_cases h : fields.all (fun kv => kv.2.isStr) = true
        · simp [h]
        · simp [h]
  · rintro (⟨e, rfl⟩ | ⟨v, rfl, hv⟩ | ⟨v, fields, rfl, hv, hall⟩)
    · rfl
    · simp [parseWorkerMapping, hv]
    · simp [parseWorkerMapping, hv, hall]

/-- Witness for parseWorkerMapping_total_spec on a failed parse. -/
theorem parseWorkerMapping_total_spec_witness :
    parseWorkerMapping (Except.error "Unexpected token") "Pioneer" =
      { mapping := [], defaultName := "Pioneer" } :=
  (parseWorkerMapping_total_spec (Except.error "Unexpected token")).2
    (Or.inl ⟨"Unexpected token", rfl⟩)

/- ### Helper lemmas for the quote provider -/

lemma withRetryList_error (l : List (Except String GeminiQuote))
    (h : ∀ o ∈ l, ∃ e, o = Except.error e) : ∃ e, withRetryList l = Except.error e := by
  induction l with
  | nil => exact ⟨"no attempts", rfl⟩
  | cons o rest ih =>
    obtain ⟨e, rfl⟩ := h o (by simp)
    cases rest with
    | nil => exact ⟨e, rfl⟩
    | cons o2 r2 =>
      have hrec := ih (fun x hx => h x (by simp [hx]))
      simpa [withRetryList] using hrec

lemma getFallbackQuote_text_mem (randomIndex : Nat) (now : Int) :
    (getFallbackQuote randomIndex now).text ∈ fallbackQuotes := by
  unfold getFallbackQuote
  cases h : fallbackQuotes[randomIndex]? with
  | some t => simpa using List.getElem?_mem h
  | none => simp [fallbackQuotes]

/-- C6: getQuote is total (a quote comes back for every cache state and every
generation outcome; failures are oracle inputs absorbed inside generateQuote,
never exceptions), and when the cache is empty and every retry attempt fails,
the returned quote is a fallback whose text is drawn from the static fallback
list. -/
theorem getQuote_fallback_spec :
    ∀ (st : GeminiState) (now : Int) (attempts : List (Option String)) (randomIndex : Nat),
      st.quoteCache = [] →
      (∀ a ∈ attempts, ∃ e, attemptOutcome now a = Except.error e) →
      (getQuote st now attempts randomIndex).2.isFallback = true ∧
      (getQuote st now attempts randomIndex).2.text ∈ fallbackQuotes := by
  intro st now attempts randomIndex hcache hfail
  obtain ⟨e, he⟩ : ∃ e, fetchQuoteFromApi now attempts = Except.error e := by
    apply withRetryList_error
    intro o ho
    simp only [List.mem_map] at ho
    obtain ⟨a, ha, rfl⟩ := ho
    exact hfail a (List.mem_of_mem_take ha)
  simp only [getQuote, hcache, generateQuote, he]
  exact ⟨rfl, getFallbackQuote_text_mem randomIndex now⟩

/-- Witness for getQuote_fallback_spec with three failed attempts. -/
theorem getQuote_fallback_spec_witness :
    (getQuote ⟨[], 10⟩ 5 [none, none, none] 7).2.isFallback = true ∧
    (getQuote ⟨[], 10⟩ 5 [none, none, none] 7).2.text ∈ fallbackQuotes :=
  getQuote_fallback_spec ⟨[], 10⟩ 5 [none, none, none] 7 rfl
    (by intro a ha; simp at ha; subst ha; exact ⟨"api error", rfl⟩)

/-- Counterexample to C5 as stated: with an empty cache and one successful
live generation, the very quote returned for the first completed session is
also the next quote that the cache serves, so the same (non-fallback) quote
value is returned for two different completed sessions. -/
theorem getQuote_reuse_counterexample :
    (getQuote ⟨[], 10⟩ 5 [some "Keep building"] 0).2 =
      (getQuote (getQuote ⟨[], 10⟩ 5 [some "Keep building"] 0).1 6 [] 0).2 ∧
    (getQuote ⟨[], 10⟩ 5 [some "Keep building"] 0).2.isFallback = false := by decide

/-- C5 amended: getQuote serves cached quotes first-in-first-out, removing the
front entry when one is served, so each cache entry is consumed at most once
from the cache; but a successful live generation also appends the returned
quote to the cache whenever it is below capacity, so that same quote value can
be served again for a later completed session. -/
theorem getQuote_fifo_spec :
    (∀ (st : GeminiState) (q : GeminiQuote) (rest : List GeminiQuote) (now : Int)
        (attempts : List (Option String)) (randomIndex : Nat),
        st.quoteCache = q :: rest →
        getQuote st now attempts randomIndex = ({ st with quoteCache := rest }, q)) ∧
    (∀ (st : GeminiState) (now : Int) (raw : String) (randomIndex : Nat) (q : GeminiQuote),
        st.quoteCache = [] → 0 < st.maxCachedQuotes →
        attemptOutcome now (some raw) = Except.ok q →
        getQuote st now [some raw] randomIndex = ({ st with quoteCache := [q] }, q)) := by
  constructor
  · intro st q rest now attempts randomIndex h
    simp [getQuote, h]
  · intro st now raw randomIndex q hc hm hok
    simp only [getQuote, hc, generateQuote, fetchQuoteFromApi, List.take, List.map,
      withRetryList, hok, cacheQuote, hc, List.length_nil, hm, if_pos, List.nil_append]

/-- Witness for getQuote_fifo_spec: one pop from a nonempty cache and one
live generation into an empty cache. -/
theorem getQuote_fifo_spec_witness :
    getQuote ⟨[⟨"A", 1, false⟩], 10⟩ 5 [] 0 = (⟨[], 10⟩, ⟨"A", 1, false⟩) ∧
    getQuote ⟨[], 10⟩ 5 [some "B"] 0 = (⟨[⟨"B", 5, false⟩], 10⟩, ⟨"B", 5, false⟩) :=
  ⟨getQuote_fifo_spec.1 ⟨[⟨"A", 1, false⟩], 10⟩ ⟨"A", 1, false⟩ [] 5 [] 0 rfl,
   getQuote_fifo_spec.2 ⟨[], 10⟩ 5 "B" 0 ⟨"B", 5, false⟩ rfl (by decide) rfl⟩

/-- Counterexample to C7 as stated: the text handed to the delivery call is
not the raw template, because sanitizeDiscordMessage runs on the whole built
message first and escapes its markdown characters, in particular the
asterisks that wrap the quote. -/
theorem sendSessionEndMessage_counterexample :
    deliveredTextOf (sendSessionEndMessage true [("u1", ⟨"Bob", PresenceVal.nullish⟩)]
        ⟨[("u1", "Pioneer")], "Pioneer"⟩ ⟨[⟨"Stay productive", 0, false⟩], 10⟩ 0 [] 0 "u1" 0
        (Except.ok ())).2 ≠
      some (specMessageWithRoleLabel "Bob" "Pioneer" "00:00:00" "Stay productive") := by
  decide

/-- C7 amended: the message built by sendSessionEndMessage before sanitization
is exactly the fixed template, with the quoted role segment iff a role-label
mapping entry exists for the identifier; the text handed to the delivery call
is the sanitizeDiscordMessage image of that template. -/
theorem sendSessionEndMessage_template_spec :
    ∀ (monitoredUsers : List (String × MonitoredUser)) (workerMapping : WorkerConfig)
      (gst : GeminiState) (now : Int) (attempts : List (Option String)) (randomIndex : Nat)
      (userId : String) (duration : Int) (delivery : Except String Unit),
      deliveredTextOf (sendSessionEndMessage true monitoredUsers workerMapping gst now
          attempts randomIndex userId duration delivery).2 =
        some (sanitizeDiscordMessage
          (if (workerMapping.mapping.lookup userId).isSome then
            specMessageWithRoleLabel (memberDisplayName monitoredUsers userId)
              (getWorkerName userId workerMapping none) (formatDuration duration)
              (getQuote gst now attempts randomIndex).2.text
          else
            specMessageWithoutRoleLabel (memberDisplayName monitoredUsers userId)
              (formatDuration duration)
              (getQuote gst now attempts randomIndex).2.text)) := by
  intro monitoredUsers workerMapping gst now attempts randomIndex userId duration delivery
  cases delivery with
  | ok u =>
    cases h : (workerMapping.mapping.lookup userId).isSome <;>
      simp [sendSessionEndMessage, deliveredTextOf, h, sessionEndMessageText,
        specMessageWithRoleLabel, specMessageWithoutRoleLabel]
  | error e =>
    cases h : (workerMapping.mapping.lookup userId).isSome <;>
      simp [sendSessionEndMessage, deliveredTextOf, h, sessionEndMessageText,
        specMessageWithRoleLabel, specMessageWithoutRoleLabel]

/-- C4: on an active-to-idle edge the record is reset before the send is
awaited, the resulting record does not depend on the delivery outcome, the
send path always yields an outcome value (the catch swallows every delivery
error, so nothing propagates), and a failed delivery is logged with its error
while the session stays ended. -/
theorem sessionEnd_commit_spec :
    ∀ (s : SessionState) (t now : Int) (hasChannel : Bool)
      (monitoredUsers : List (String × MonitoredUser)) (workerMapping : WorkerConfig)
      (gst : GeminiState) (attempts : List (Option String)) (randomIndex : Nat)
      (userId : String) (delivery : Except String Unit),
      s.isPlaying = true → s.startTime = some t → t ≠ 0 →
      ((updateSessionStateWithSend s false now hasChannel monitoredUsers workerMapping gst
          attempts randomIndex userId delivery).1.isPlaying = false ∧
        (updateSessionStateWithSend s false now hasChannel monitoredUsers workerMapping gst
          attempts randomIndex userId delivery).1.startTime = none) ∧
      (∀ d2 : Except String Unit,
        (updateSessionStateWithSend s false now hasChannel monitoredUsers workerMapping gst
          attempts randomIndex userId d2).1 =
        (updateSessionStateWithSend s false now hasChannel monitoredUsers workerMapping gst
          attempts randomIndex userId delivery).1) ∧
      ((updateSessionStateWithSend s false now hasChannel monitoredUsers workerMapping gst
          attempts randomIndex userId delivery).2.2.isSome = true) ∧
      (hasChannel = true → ∀ e, delivery = Except.error e →
        ∃ txt, (updateSessionStateWithSend s false now hasChannel monitoredUsers workerMapping
          gst attempts randomIndex userId delivery).2.2 =
            some (SendOutcome.failedLogged txt e)) := by
  intro s t now hasChannel monitoredUsers workerMapping gst attempts randomIndex userId
    delivery hp hs ht
  have hb : (t != 0) = true := by simpa using ht
  have hupd : updateSessionState s false now =
      ({ startTime := none, isPlaying := false, lastPresenceCheck := now }, some (now - t)) := by
    simp [updateSessionState, hp, hs, jsTruthyTime, hb]
  refine ⟨?_, ?_, ?_, ?_⟩
  · simp [updateSessionStateWithSend, hupd]
  · intro d2
    simp [updateSessionStateWithSend, hupd]
  · simp only [updateSessionStateWithSend, hupd]
    cases hasChannel <;> cases delivery <;> simp [sendSessionEndMessage]
  · intro hch e hdel
    subst hch hdel
    simp only [updateSessionStateWithSend, hupd, sendSessionEndMessage]
    exact ⟨_, rfl⟩

/-- Witness for sessionEnd_commit_spec on a concrete active record with a
failing delivery. -/
theorem sessionEnd_commit_spec_witness :
    (updateSessionStateWithSend ⟨some 5, true, 0⟩ false 9 true [] ⟨[], "Pioneer"⟩ ⟨[], 10⟩
      [] 0 "u1" (Except.error "50013")).1.isPlaying = false ∧
    (updateSessionStateWithSend ⟨some 5, true, 0⟩ false 9 true [] ⟨[], "Pioneer"⟩ ⟨[], 10⟩
      [] 0 "u1" (Except.error "50013")).1.startTime = none :=
  (sessionEnd_commit_spec ⟨some 5, true, 0⟩ 5 9 true [] ⟨[], "Pioneer"⟩ ⟨[], 10⟩ [] 0 "u1"
    (Except.error "50013") rfl rfl (by decide)).1

/- ### Helper lemmas for the transition-function claims -/

lemma processSignals_length (sigs : List (Bool × Int)) :
    ∀ s : SessionState, (∀ p ∈ sigs, 0 < p.2) →
    (s.isPlaying = true → ∃ t, s.startTime = some t ∧ 0 < t) →
    (processSignals s sigs).2.length = countEdges s.isPlaying (sigs.map Prod.fst) := by
  induction sigs with
  | nil => intro s _ _; rfl
  | cons p rest ih =>
    obtain ⟨b, tm⟩ := p
    intro s hpos hinv
    obtain ⟨st0, ip0, lpc0⟩ := s
    have htm : 0 < tm := hpos (b, tm) (by simp)
    have hpos' : ∀ q ∈ rest, 0 < q.2 := fun q hq => hpos q (by simp [hq])
    cases ip0 with
    | false =>
      cases b with
      | false =>
        have hupd : updateSessionState ⟨st0, false, lpc0⟩ false tm =
            (⟨st0, false, tm⟩, none) := by
          simp [updateSessionState]
        have hrec := ih ⟨st0, false, tm⟩ hpos' (by simp)
        simp [processSignals, hupd, countEdges, hrec]
      | true =>
        have hupd : updateSessionState ⟨st0, false, lpc0⟩ true tm =
            (⟨some tm, true, tm⟩, none) := by
          simp [updateSessionState]
        have hrec := ih ⟨some tm, true, tm⟩ hpos' (fun _ => ⟨tm, rfl, htm⟩)
        simp [processSignals, hupd, countEdges, hrec]
    | true =>
      obtain ⟨t, hst, ht0⟩ := hinv rfl
      have hst' : st0 = some t := hst
      subst hst'
      cases b with
      | false =>
        have hbne : (t != 0) = true := by simp; omega
        have hupd : updateSessionState ⟨some t, true, lpc0⟩ false tm =
            (⟨none, false, tm⟩, some (tm - t)) := by
          simp [updateSessionState, jsTruthyTime, hbne]
        have hrec := ih ⟨none, false, tm⟩ hpos' (by simp)
        simp [processSignals, hupd, countEdges, hrec]
        omega
      | true =>
        have hupd : updateSessionState ⟨some t, true, lpc0⟩ true tm =
            (⟨some t, true, tm⟩, none) := by
          simp [updateSessionState]
        have hrec := ih ⟨some t, true, tm⟩ hpos' (fun _ => ⟨t, rfl, ht0⟩)
        simp [processSignals, hupd, countEdges, hrec]

/-- C1: over any finite signal sequence with positive timestamps, starting
from the initial idle record, the number of emitted completed-session events
equals the number of true-to-false edges with an implicit leading false; and
a self-transition (signal equal to the current flag) never emits an event and
never changes startTime.  The positive-timestamp hypothesis reflects that
Date.now() is positive: the source tests startTime for JavaScript truthiness,
which a zero timestamp would fail. -/
theorem updateSessionState_edge_count_spec :
    (∀ (t0 : Int) (sigs : List (Bool × Int)), (∀ p ∈ sigs, 0 < p.2) →
      (processSignals (initialSessionState t0) sigs).2.length =
        countEdges false (sigs.map Prod.fst)) ∧
    (∀ (s : SessionState) (b : Bool) (now : Int), s.isPlaying = b →
      (updateSessionState s b now).1.startTime = s.startTime ∧
      (updateSessionState s b now).2 = none) := by
  constructor
  · intro t0 sigs hpos
    have h := processSignals_length sigs (initialSessionState t0) hpos
      (by simp [initialSessionState])
    simpa [initialSessionState] using h
  · intro s b now hb
    cases b with
    | false => simp [updateSessionState, hb]
    | true => simp [updateSessionState, hb]

/-- Witness for updateSessionState_edge_count_spec on a concrete trace and a
concrete self-transition. -/
theorem updateSessionState_edge_count_spec_witness :
    ((∀ p ∈ [(true, 5), (true, 6), (false, 9)], 0 < Prod.snd p) ∧
      (processSignals (initialSessionState 1) [(true, 5), (true, 6), (false, 9)]).2.length =
        countEdges false ([(true, 5), (true, 6), (false, 9)].map Prod.fst)) ∧
    (updateSessionState ⟨some 5, true, 0⟩ true 7).1.startTime = some 5 ∧
    (updateSessionState ⟨some 5, true, 0⟩ true 7).2 = none :=
  ⟨⟨by decide, updateSessionState_edge_count_spec.1 1 [(true, 5), (true, 6), (false, 9)]
      (by decide)⟩,
   updateSessionState_edge_count_spec.2 ⟨some 5, true, 0⟩ true 7 rfl⟩

/- ### The record invariant (claim C2) -/

/-- The spec invariant on one session record: the derived activity flag is set
exactly when a start timestamp is present. -/
def sessionRecordInvariant (s : SessionState) : Prop :=
  s.isPlaying = true ↔ s.startTime.isSome = true

lemma addNewUsers_mem (now : Int) :
    ∀ (ids : List String) (st : List (String × SessionState)) (e : String × SessionState),
      e ∈ addNewUsers now ids st → e ∈ st ∨ e.2 = initialSessionState now := by
  intro ids
  induction ids with
  | nil => intro st e he; exact Or.inl he
  | cons id rest ih =>
    intro st e he
    simp only [addNewUsers] at he
    by_cases hin : st.any (fun kv => kv.1 == id)
    · rw [if_pos hin] at he
      exact ih st e he
    · rw [if_neg hin] at he
      rcases ih _ e he with hmem | hinit
      · rcases List.mem_append.mp hmem with h | h
        · exact Or.inl h
        · simp only [List.mem_singleton] at h
          subst h
          exact Or.inr rfl
      · exact Or.inr hinit

lemma removeStale_mem (now : Int) (newIds : List String) :
    ∀ (ids : List String) (st : List (String × SessionState)) (e : String × SessionState),
      e ∈ (removeStale now newIds ids st).1 → e ∈ st := by
  intro ids
  induction ids with
  | nil => intro st e he; exact he
  | cons id rest ih =>
    intro st e he
    simp only [removeStale] at he
    by_cases hin : newIds.contains id
    · rw [if_pos hin] at he
      exact ih st e he
    · rw [if_neg hin] at he
      exact (List.mem_filter.mp (ih _ e he)).1

/-- C2: the invariant isPlaying iff startTime-present holds for every freshly
created record, is preserved by every call of the transition function, and is
preserved across every membership refresh for every record still present
afterwards. -/
theorem sessionRecordInvariant_spec :
    (∀ now : Int, sessionRecordInvariant (initialSessionState now)) ∧
    (∀ (s : SessionState) (b : Bool) (now : Int), sessionRecordInvariant s →
      sessionRecordInvariant (updateSessionState s b now).1) ∧
    (∀ (fetchOk : Bool) (states : List (String × SessionState))
        (roster : List (String × RosterEntry)) (now : Int),
      (∀ e ∈ states, sessionRecordInvariant e.2) →
      ∀ e ∈ (updateMonitoredUsers fetchOk states roster now).1,
        sessionRecordInvariant e.2) := by
  refine ⟨?_, ?_, ?_⟩
  · intro now
    simp [sessionRecordInvariant, initialSessionState]
  · intro s b now hinv
    obtain ⟨st0, ip0, lpc0⟩ := s
    simp only [sessionRecordInvariant] at hinv ⊢
    cases b with
    | true =>
      cases ip0 with
      | false => simp [updateSessionState]
      | true => simpa [updateSessionState] using hinv
    | false =>
      cases ip0 with
      | false => simpa [updateSessionState] using hinv
      | true =>
        cases st0 with
        | none => simp [updateSessionState, jsTruthyTime] at hinv
        | some t =>
          by_cases ht : t = 0
          · subst ht
            simp [updateSessionState, jsTruthyTime]
          · have hbne : (t != 0) = true := by simp [ht]
            simp [updateSessionState, jsTruthyTime, hbne]
  · intro fetchOk states roster now hinv e he
    cases fetchOk with
    | false => exact hinv e he
    | true =>
      simp only [updateMonitoredUsers, if_pos] at he
      have h1 := removeStale_mem now (newUserIdsOf roster) (states.map Prod.fst) _ e he
      rcases addNewUsers_mem now (newUserIdsOf roster) states e h1 with h | h
      · exact hinv e h
      · rw [h]
        simp [sessionRecordInvariant, initialSessionState]

/-- Witness for sessionRecordInvariant_spec on a concrete record, transition
and refresh. -/
theorem sessionRecordInvariant_spec_witness :
    sessionRecordInvariant (updateSessionState ⟨some 5, true, 0⟩ false 9).1 ∧
    sessionRecordInvariant (initialSessionState 3) :=
  ⟨sessionRecordInvariant_spec.2.1 ⟨some 5, true, 0⟩ false 9 (by simp [sessionRecordInvariant]),
   sessionRecordInvariant_spec.1 3⟩

/- ### Association-list lookup lemmas shared by the refresh and cycle claims -/

lemma lookup_filter_ne (st : List (String × SessionState)) (uid id : String)
    (hne : uid ≠ id) :
    (st.filter (fun kv => !(kv.1 == id))).lookup uid = st.lookup uid := by
  induction st with
  | nil => rfl
  | cons kv rest ih =>
    obtain ⟨k, v⟩ := kv
    by_cases hk : k = id
    · subst hk
      have h1 : (uid == k) = false := beq_eq_false_iff_ne.mpr hne
      simp [List.filter_cons, List.lookup, h1, ih]
    · have h2 : (k == id) = false := beq_eq_false_iff_ne.mpr hk
      by_cases hu : uid = k
      · subst hu
        simp [List.filter_cons, List.lookup, h2]
      · have h3 : (uid == k) = false := beq_eq_false_iff_ne.mpr hu
        simp [List.filter_cons, List.lookup, h2, h3, ih]

lemma lookup_filter_self (st : List (String × SessionState)) (id : String) :
    (st.filter (fun kv => !(kv.1 == id))).lookup id = none := by
  induction st with
  | nil => rfl
  | cons kv rest ih =>
    obtain ⟨k, v⟩ := kv
    by_cases hk : k = id
    · subst hk
      simp [List.filter_cons, ih]
    · have h2 : (k == id) = false := beq_eq_false_iff_ne.mpr hk
      have h3 : (id == k) = false := beq_eq_false_iff_ne.mpr (fun h => hk h.symm)
      simp [List.filter_cons, List.lookup, h2, h3, ih]

lemma lookup_none_filter (st : List (String × SessionState)) (uid : String)
    (p : String × SessionState → Bool) (h : st.lookup uid = none) :
    (st.filter p).lookup uid = none := by
  induction st with
  | nil => rfl
  | cons kv rest ih =>
    obtain ⟨k, v⟩ := kv
    by_cases hk : uid = k
    · subst hk
      simp [List.lookup] at h
    · have h3 : (uid == k) = false := beq_eq_false_iff_ne.mpr hk
      simp only [List.lookup, h3] at h
      by_cases hp : p (k, v)
      · simp [List.filter_cons, hp, List.lookup, h3, ih h]
      · simp [List.filter_cons, hp, ih h]

lemma lookup_append_some (st l : List (String × SessionState)) (uid : String)
    (s : SessionState) (h : st.lookup uid = some s) : (st ++ l).lookup uid = some s := by
  induction st with
  | nil => simp [List.lookup] at h
  | cons kv rest ih =>
    obtain ⟨k, v⟩ := kv
    by_cases hk : uid = k
    · subst hk
      simp only [List.lookup, beq_self_eq_true] at h ⊢
      simpa using h
    · have h3 : (uid == k) = false := beq_eq_false_iff_ne.mpr hk
      simp only [List.cons_append, List.lookup, h3] at h ⊢
      exact ih h

lemma lookup_some_mem_keys (st : List (String × SessionState)) (uid : String)
    (s : SessionState) (h : st.lookup uid = some s) : uid ∈ st.map Prod.fst := by
  induction st with
  | nil => simp [List.lookup] at h
  | cons kv rest ih =>
    obtain ⟨k, v⟩ := kv
    by_cases hk : uid = k
    · subst hk
      simp
    · have h3 : (uid == k) = false := beq_eq_false_iff_ne.mpr hk
      simp only [List.lookup, h3] at h
      simp [ih h]

lemma addNewUsers_lookup_some (now : Int) :
    ∀ (ids : List String) (st : List (String × SessionState)) (uid : String)
      (s : SessionState), st.lookup uid = some s →
      (addNewUsers now ids st).lookup uid = some s := by
  intro ids
  induction ids with
  | nil => intro st uid s h; exact h
  | cons id rest ih =>
    intro st uid s h
    simp only [addNewUsers]
    by_cases hin : st.any (fun kv => kv.1 == id)
    · rw [if_pos hin]
      exact ih st uid s h
    · rw [if_neg hin]
      exact ih _ uid s (lookup_append_some st _ uid s h)

lemma forceEndEvents_key (now : Int) (id : String) (o : Option SessionState)
    (e : String × Int) (he : e ∈ forceEndEvents now id o) : e.1 = id := by
  cases o with
  | none => simp [forceEndEvents] at he
  | some s =>
    simp only [forceEndEvents] at he
    by_cases hp : s.isPlaying && jsTruthyTime s.startTime
    · rw [if_pos hp] at he
      cases hst : s.startTime with
      | none => rw [hst] at he; simp at he
      | some t =>
        rw [hst] at he
        simp only [List.mem_singleton] at he
        subst he
        rfl
    · rw [if_neg hp] at he
      simp at he

lemma removeStale_events_key_mem (now : Int) (newIds : List String) :
    ∀ (ids : List String) (st : List (String × SessionState)) (e : String × Int),
      e ∈ (removeStale now newIds ids st).2 → e.1 ∈ ids := by
  intro ids
  induction ids with
  | nil => intro st e he; simp [removeStale] at he
  | cons id rest ih =>
    intro st e he
    simp only [removeStale] at he
    by_cases hc : newIds.contains id
    · rw [if_pos hc] at he
      exact List.mem_cons_of_mem _ (ih st e he)
    · rw [if_neg hc] at he
      rcases List.mem_append.mp he with h | h
      · simp [forceEndEvents_key now id _ e h]
      · exact List.mem_cons_of_mem _ (ih _ e h)

lemma removeStale_lookup_none (now : Int) (newIds : List String) :
    ∀ (ids : List String) (st : List (String × SessionState)) (uid : String),
      st.lookup uid = none → (removeStale now newIds ids st).1.lookup uid = none := by
  intro ids
  induction ids with
  | nil => intro st uid h; exact h
  | cons id rest ih =>
    intro st uid h
    simp only [removeStale]
    by_cases hc : newIds.contains id
    · rw [if_pos hc]
      exact ih st uid h
    · rw [if_neg hc]
      exact ih _ uid (lookup_none_filter st uid _ h)

lemma removeStale_spec (now : Int) (newIds : List String) :
    ∀ (ids : List String) (st : List (String × SessionState)) (uid : String)
      (s : SessionState),
      ids.Nodup → uid ∈ ids → uid ∉ newIds → st.lookup uid = some s →
      (removeStale now newIds ids st).1.lookup uid = none ∧
      (removeStale now newIds ids st).2.filter (fun e => e.1 == uid) =
        forceEndEvents now uid (some s) := by
  intro ids
  induction ids with
  | nil => intro st uid s _ hmem; simp at hmem
  | cons id rest ih =>
    intro st uid s hnd hmem hnot hlook
    obtain ⟨hnotin, hnd'⟩ := List.nodup_cons.mp hnd
    simp only [removeStale]
    by_cases hid : id = uid
    · subst hid
      have hc : ¬ (newIds.contains id = true) := by
        intro hcon
        exact hnot (List.mem_of_elem_eq_true hcon)
      rw [if_neg hc]
      have hrest : id ∉ rest := hnotin
      have hnone : (st.filter (fun kv => !(kv.1 == id))).lookup id = none :=
        lookup_filter_self st id
      refine ⟨removeStale_lookup_none now newIds rest _ id hnone, ?_⟩
      rw [List.filter_append]
      have hevs : (forceEndEvents now id (st.lookup id)).filter (fun e => e.1 == id) =
          forceEndEvents now id (some s) := by
        rw [hlook]
        apply List.filter_eq_self.mpr
        intro e he
        simp [forceEndEvents_key now id _ e he]
      rw [hevs]
      have hrec : ((removeStale now newIds rest
          (st.filter (fun kv => !(kv.1 == id)))).2.filter (fun e => e.1 == id)) = [] := by
        apply List.filter_eq_nil_iff.mpr
        intro e he
        have := removeStale_events_key_mem now newIds rest _ e he
        simp only [Bool.not_eq_true, beq_eq_false_iff_ne, ne_eq]
        intro hk
        exact hrest (hk ▸ this)
      rw [hrec, List.append_nil]
    · have hmem' : uid ∈ rest := by
        rcases List.mem_cons.mp hmem with h | h
        · exact absurd h.symm hid
        · exact h
      by_cases hc : newIds.contains id
      · rw [if_pos hc]
        exact ih st uid s hnd' hmem' hnot hlook
      · rw [if_neg hc]
        have hlook' : (st.filter (fun kv => !(kv.1 == id))).lookup uid = some s := by
          rw [lookup_filter_ne st uid id (fun h => hid h.symm)]
          exact hlook
        have hr := ih _ uid s hnd' hmem' hnot hlook'
        refine ⟨hr.1, ?_⟩
        rw [List.filter_append]
        have hevs : (forceEndEvents now id (st.lookup id)).filter (fun e => e.1 == uid) = [] := by
          apply List.filter_eq_nil_iff.mpr
          intro e he
          have := forceEndEvents_key now id _ e he
          simp only [Bool.not_eq_true, beq_eq_false_iff_ne, ne_eq]
          rw [this]
          exact hid
        rw [hevs, List.nil_append]
        exact hr.2

/-- C3: a membership refresh that drops a tracked identity deletes its record,
emitting exactly one completed-session event for it when the record was active
(isPlaying with a truthy startTime) and none when it was idle.  The t ≠ 0
hypothesis reflects JavaScript truthiness of the stored Date.now timestamp. -/
theorem updateMonitoredUsers_removal_spec :
    ∀ (states : List (String × SessionState)) (roster : List (String × RosterEntry))
      (now : Int) (uid : String) (s : SessionState),
      (states.map Prod.fst).Nodup →
      states.lookup uid = some s →
      uid ∉ newUserIdsOf roster →
      ((updateMonitoredUsers true states roster now).1.lookup uid = none) ∧
      (s.isPlaying = true → ∀ t : Int, s.startTime = some t → t ≠ 0 →
        ((updateMonitoredUsers true states roster now).2.filter
          (fun e => e.1 == uid)).length = 1) ∧
      (s.isPlaying = false →
        ((updateMonitoredUsers true states roster now).2.filter
          (fun e => e.1 == uid)).length = 0) := by
  intro states roster now uid s hnd hlook hnot
  have hmem : uid ∈ states.map Prod.fst := lookup_some_mem_keys states uid s hlook
  have hlook1 : (addNewUsers now (newUserIdsOf roster) states).lookup uid = some s :=
    addNewUsers_lookup_some now (newUserIdsOf roster) states uid s hlook
  have h := removeStale_spec now (newUserIdsOf roster) (states.map Prod.fst)
    (addNewUsers now (newUserIdsOf roster) states) uid s hnd hmem hnot hlook1
  have hunfold : updateMonitoredUsers true states roster now =
      removeStale now (newUserIdsOf roster) (states.map Prod.fst)
        (addNewUsers now (newUserIdsOf roster) states) := by
    simp [updateMonitoredUsers]
  rw [hunfold]
  refine ⟨h.1, ?_, ?_⟩
  · intro hp t hst ht
    rw [h.2]
    have hbne : (t != 0) = true := by simpa using ht
    simp [forceEndEvents, hp, hst, jsTruthyTime, hbne]
  · intro hp
    rw [h.2]
    simp [forceEndEvents, hp]

/-- Witness for updateMonitoredUsers_removal_spec: one active user removed by
an empty roster. -/
theorem updateMonitoredUsers_removal_spec_witness :
    ((updateMonitoredUsers true [("u1", ⟨some 5, true, 0⟩)] [] 9).1.lookup "u1" = none) ∧
    (((updateMonitoredUsers true [("u1", ⟨some 5, true, 0⟩)] [] 9).2.filter
      (fun e => e.1 == "u1")).length = 1) :=
  have h := updateMonitoredUsers_removal_spec [("u1", ⟨some 5, true, 0⟩)] [] 9 "u1"
    ⟨some 5, true, 0⟩ (by decide) (by decide) (by decide)
  ⟨h.1, h.2.1 rfl 5 rfl (by decide)⟩

/- ### Lemmas for the monitoring-cycle claim -/

lemma replaceEntry_lookup_ne (st : List (String × SessionState)) (uid uid' : String)
    (v : SessionState) (h : uid' ≠ uid) :
    (replaceEntry st uid v).lookup uid' = st.lookup uid' := by
  induction st with
  | nil => rfl
  | cons kv rest ih =>
    obtain ⟨k, v0⟩ := kv
    simp only [replaceEntry] at ih
    simp only [replaceEntry, List.map_cons]
    by_cases hbe : (k == uid) = true
    · rw [if_pos (show ((k, v0).1 == uid) = true from hbe)]
      have hk : k = uid := by simpa using hbe
      have h1 : (uid' == uid) = false := beq_eq_false_iff_ne.mpr h
      have h2 : (uid' == k) = false := by rw [hk]; exact h1
      simp only [List.lookup, h1, h2]
      exact ih
    · rw [if_neg (show ¬ ((k, v0).1 == uid) = true from hbe)]
      by_cases hu : uid' = k
      · subst hu
        simp only [List.lookup, beq_self_eq_true]
      · have h2 : (uid' == k) = false := beq_eq_false_iff_ne.mpr hu
        simp only [List.lookup, h2]
        exact ih

lemma replaceEntry_lookup_self (st : List (String × SessionState)) (uid : String)
    (v s : SessionState) (h : st.lookup uid = some s) :
    (replaceEntry st uid v).lookup uid = some v := by
  induction st with
  | nil => simp [List.lookup] at h
  | cons kv rest ih =>
    obtain ⟨k, v0⟩ := kv
    simp only [replaceEntry] at ih
    simp only [replaceEntry, List.map_cons]
    by_cases hbe : (k == uid) = true
    · rw [if_pos (show ((k, v0).1 == uid) = true from hbe)]
      simp only [List.lookup, beq_self_eq_true]
    · rw [if_neg (show ¬ ((k, v0).1 == uid) = true from hbe)]
      have hbf : (k == uid) = false := by simpa using hbe
      have hkne : k ≠ uid := by simpa using hbf
      have h1 : (uid == k) = false := beq_eq_false_iff_ne.mpr (fun hh => hkne hh.symm)
      simp only [List.lookup, h1] at h ⊢
      exact ih h

lemma cycle_lookup_notmem :
    ∀ (users : List (String × MonitoredUser)) (st : List (String × SessionState))
      (now : Int) (uid : String), uid ∉ users.map Prod.fst →
      (performMonitoringCycle users st now).1.lookup uid = st.lookup uid := by
  intro users
  induction users with
  | nil => intro st now uid _; rfl
  | cons p rest ih =>
    obtain ⟨uid', du⟩ := p
    intro st now uid hmem
    have hne : uid ≠ uid' := by
      intro h
      exact hmem (by simp [h])
    have hmem' : uid ∉ rest.map Prod.fst := by
      intro h
      exact hmem (by simp [h])
    simp only [performMonitoringCycle]
    by_cases hp : jsTruthyPresence du.presence
    · rw [if_pos hp]
      cases hlk : st.lookup uid' with
      | none => exact ih st now uid hmem'
      | some s =>
        have hre := replaceEntry_lookup_ne st uid' uid
          (updateSessionState s (isPlayingSatisfactoryFromPresence du.presence) now).1 hne
        rw [ih _ now uid hmem', hre]
    · rw [if_neg hp]
      exact ih st now uid hmem'

lemma cycle_lookup_mem :
    ∀ (users : List (String × MonitoredUser)) (st : List (String × SessionState))
      (now : Int) (uid : String) (du : MonitoredUser) (s : SessionState),
      (users.map Prod.fst).Nodup → (uid, du) ∈ users → st.lookup uid = some s →
      (performMonitoringCycle users st now).1.lookup uid =
        (if jsTruthyPresence du.presence then
          some (updateSessionState s (isPlayingSatisfactoryFromPresence du.presence) now).1
        else some s) := by
  intro users
  induction users with
  | nil => intro st now uid du s _ hmem; simp at hmem
  | cons p rest ih =>
    obtain ⟨uid', du'⟩ := p
    intro st now uid du s hnd hmem hlk
    rw [List.map_cons] at hnd
    obtain ⟨hnd0, hnd'⟩ := List.nodup_cons.mp hnd
    rcases List.mem_cons.mp hmem with heq | htail
    · injection heq with h1 h2
      subst h1
      subst h2
      simp only [performMonitoringCycle]
      by_cases hp : jsTruthyPresence du.presence
      · rw [if_pos hp, hlk]
        have hnotmem := cycle_lookup_notmem rest
          (replaceEntry st uid
            (updateSessionState s (isPlayingSatisfactoryFromPresence du.presence) now).1) now
          uid hnd0
        rw [hnotmem, replaceEntry_lookup_self st uid _ s hlk, if_pos hp]
      · rw [if_neg hp, if_neg hp]
        rw [cycle_lookup_notmem rest st now uid hnd0]
        exact hlk
    · have hne : uid ≠ uid' := by
        intro h
        subst h
        exact hnd0 (by simpa using List.mem_map_of_mem Prod.fst htail)
      simp only [performMonitoringCycle]
      by_cases hp : jsTruthyPresence du'.presence
      · rw [if_pos hp]
        cases hlk' : st.lookup uid' with
        | none => exact ih st now uid du s hnd' htail hlk
        | some s0 =>
          have hre := replaceEntry_lookup_ne st uid' uid
            (updateSessionState s0 (isPlayingSatisfactoryFromPresence du'.presence) now).1 hne
          exact ih _ now uid du s hnd' htail (hre.trans hlk)
      · rw [if_neg hp]
        exact ih st now uid du s hnd' htail hlk

/-- Counterexample to C8 as stated: a tracked identity whose member presence
object is missing is skipped by the monitoring cycle, so the transition
function is never invoked for it and its active record survives the pass
unchanged, instead of being ended with signal false. -/
theorem monitoringCycle_missing_presence_counterexample :
    (performMonitoringCycle [("u1", ⟨"Bob", PresenceVal.nullish⟩)]
      [("u1", ⟨some 5, true, 0⟩)] 9).1.lookup "u1" = some ⟨some 5, true, 0⟩ ∧
    (updateSessionState ⟨some 5, true, 0⟩ false 9).1 ≠ (⟨some 5, true, 0⟩ : SessionState) := by
  decide

/-- C8 amended: during every monitoring pass, a malformed activities structure
inside a present presence object (no activities array, or a non-array value)
is treated as signal false and the transition function is invoked with false
for that identity, ending an active session; but an identity whose member or
presence object is missing entirely is skipped for the cycle, its record left
untouched. -/
theorem monitoringCycle_malformed_spec :
    (∀ p : PresenceVal, (p = PresenceVal.objWithoutActivities ∨
        p = PresenceVal.objActivitiesNonArray) →
      jsTruthyPresence p = true ∧ isPlayingSatisfactoryFromPresence p = false) ∧
    (∀ (users : List (String × MonitoredUser)) (st : List (String × SessionState))
        (now : Int) (uid : String) (du : MonitoredUser) (s : SessionState),
      (users.map Prod.fst).Nodup → (uid, du) ∈ users → st.lookup uid = some s →
      jsTruthyPresence du.presence = true →
      isPlayingSatisfactoryFromPresence du.presence = false →
      (performMonitoringCycle users st now).1.lookup uid =
        some (updateSessionState s false now).1) ∧
    (∀ (users : List (String × MonitoredUser)) (st : List (String × SessionState))
        (now : Int) (uid : String) (du : MonitoredUser) (s : SessionState),
      (users.map Prod.fst).Nodup → (uid, du) ∈ users → st.lookup uid = some s →
      du.presence = PresenceVal.nullish →
      (performMonitoringCycle users st now).1.lookup uid = some s) := by
  refine ⟨?_, ?_, ?_⟩
  · intro p hp
    rcases hp with h | h <;> subst h <;> exact ⟨rfl, rfl⟩
  · intro users st now uid du s hnd hmem hlk htr hfl
    have h := cycle_lookup_mem users st now uid du s hnd hmem hlk
    rw [h, if_pos htr, hfl]
  · intro users st now uid du s hnd hmem hlk hnull
    have h := cycle_lookup_mem users st now uid du s hnd hmem hlk
    rw [h, if_neg (by simp [hnull, jsTruthyPresence])]

/-- Witness for monitoringCycle_malformed_spec: a malformed presence ends the
concrete active session of one monitored user. -/
theorem monitoringCycle_malformed_spec_witness :
    (performMonitoringCycle [("u1", ⟨"Bob", PresenceVal.objWithoutActivities⟩)]
      [("u1", ⟨some 5, true, 0⟩)] 9).1.lookup "u1" =
      some (updateSessionState ⟨some 5, true, 0⟩ false 9).1 :=
  monitoringCycle_malformed_spec.2.1 [("u1", ⟨"Bob", PresenceVal.objWithoutActivities⟩)]
    [("u1", ⟨some 5, true, 0⟩)] 9 "u1" ⟨"Bob", PresenceVal.objWithoutActivities⟩
    ⟨some 5, true, 0⟩ (by decide) (by decide) (by decide) rfl rfl
